import Mathlib

/-!
Verification of the data-state engine of the `@reactorui/datagrid` repository.

The development shallowly embeds the data-processing utilities
(`compareValues`, `sortData`, `mapServerResponse` from `src/utils/index.ts`)
and the grid state engine (`useDataGrid` hook, continuation-token version)
as pure Lean functions, and proves the specified properties about them.

JavaScript dynamic values are modelled by the inductive type `JSVal`.
Numbers are modelled by integers (`Int`); the source never performs
fractional arithmetic in the verified paths, and `NaN` produced by the
numeric coercions is modelled by `Option Int` (`none` = NaN).
-/

/-- Model of a JavaScript runtime value.  Numbers are restricted to
integers; fractional values never matter for the verified properties. -/
inductive JSVal where
  | vNull
  | vUndefined
  | vBool (b : Bool)
  | vNum (n : Int)
  | vStr (s : String)
  | vArr (elems : List JSVal)
  | vObj (fields : List (String × JSVal))

namespace JSVal

/-- JavaScript `value == null` (matches both `null` and `undefined`). -/
def isNullish : JSVal → Bool
  | vNull => true
  | vUndefined => true
  | _ => false

/-- JavaScript truthiness (`Boolean(v)` / `if (v)`): `null`, `undefined`,
`false`, `0` and `""` are falsy, everything else (including empty arrays
and objects) is truthy.  `NaN` does not occur as a stored `vNum`. -/
def truthy : JSVal → Bool
  | vNull => false
  | vUndefined => false
  | vBool b => b
  | vNum n => n != 0
  | vStr s => s ≠ ""
  | vArr _ => true
  | vObj _ => true

end JSVal

mutual
/-- JavaScript `String(v)` string coercion. -/
def jsToString : JSVal → String
  | .vNull => "null"
  | .vUndefined => "undefined"
  | .vBool b => if b then "true" else "false"
  | .vNum n => toString n
  | .vStr s => s
  | .vArr xs => jsToStringList xs
  | .vObj _ => "[object Object]"

/-- `Array.prototype.toString` = elements joined with `","`;
`null` and `undefined` elements render as the empty string. -/
def jsToStringList : List JSVal → String
  | [] => ""
  | [x] => if x.isNullish then "" else jsToString x
  | x :: y :: rest =>
      (if x.isNullish then "" else jsToString x) ++ "," ++ jsToStringList (y :: rest)
end

/-- `s.toLowerCase()`, modelled as the per-character ASCII case mapping
(the same character function as Lean's `String.toLower`, expressed over
the character list so that it evaluates by kernel reduction). -/
def strToLower (s : String) : String :=
  String.mk (s.data.map Char.toLower)

/-- Whitespace trimming from both ends of a character list
(JS string-to-number coercion ignores surrounding whitespace). -/
def trimChars (l : List Char) : List Char :=
  ((l.dropWhile Char.isWhitespace).reverse.dropWhile Char.isWhitespace).reverse

/-- `Number(...)` applied to the characters of a (trimmed) string:
the empty string gives `0`; an optional sign followed by decimal digits
gives that integer; anything else gives `NaN` (`none`).
(Fractional, hex and exponent literals are not modelled; no verified
claim depends on them.) -/
def strToNumChars : List Char → Option Int
  | [] => some 0
  | '-' :: rest =>
      if rest ≠ [] ∧ rest.all Char.isDigit then
        some (-(Int.ofNat (rest.foldl (fun n c => 10 * n + (c.toNat - 48)) 0)))
      else none
  | '+' :: rest =>
      if rest ≠ [] ∧ rest.all Char.isDigit then
        some (Int.ofNat (rest.foldl (fun n c => 10 * n + (c.toNat - 48)) 0))
      else none
  | l =>
      if l.all Char.isDigit then
        some (Int.ofNat (l.foldl (fun n c => 10 * n + (c.toNat - 48)) 0))
      else none

/-- JavaScript `Number(v)` coercion; `none` models `NaN`.
Objects and arrays coerce through their string representation. -/
def jsToNumber (v : JSVal) : Option Int :=
  match v with
  | .vUndefined => none
  | .vNull => some 0
  | .vBool b => some (if b then 1 else 0)
  | .vNum n => some n
  | .vStr s => strToNumChars (trimChars s.data)
  | .vArr _ => strToNumChars (trimChars (jsToString v).data)
  | .vObj _ => strToNumChars (trimChars (jsToString v).data)

/-- JavaScript `parseFloat(v)`: the argument is coerced to a string,
leading whitespace is skipped, then an optional sign and a maximal
digit run are read; trailing garbage is ignored; if no digit is
present the result is `NaN` (`none`).  (Fractional parts are not
modelled; no verified claim depends on them.) -/
def parseFloatChars : List Char → Option Int
  | [] => none
  | c :: rest =>
      if c = ' ' then parseFloatChars rest
      else
        let (sign, body) : Int × List Char :=
          if c = '-' then (-1, rest) else if c = '+' then (1, rest) else (1, c :: rest)
        let ds := body.takeWhile Char.isDigit
        if ds = [] then none
        else some (sign * Int.ofNat (ds.foldl (fun n c => 10 * n + (c.toNat - 48)) 0))

/-- `parseFloat` on a JS value (coerces to string first, as JS does). -/
def jsParseFloat (v : JSVal) : Option Int :=
  parseFloatChars (jsToString v).data

/-- `new Date(v).getTime()`, modelled partially: a numeric argument is
its own epoch value, `null` coerces to epoch `0`, booleans to `0`/`1`;
string date parsing is environment-defined and modelled as `NaN`
(no verified claim depends on it). -/
def jsDateGetTime : JSVal → Option Int
  | .vNum n => some n
  | .vNull => some 0
  | .vBool b => some (if b then 1 else 0)
  | _ => none

/-- `a === b` on model numbers: any comparison involving `NaN` is false. -/
def jsNumEq : Option Int → Option Int → Bool
  | some a, some b => a == b
  | _, _ => false

/-- `a > b` on model numbers. -/
def jsNumGt : Option Int → Option Int → Bool
  | some a, some b => a > b
  | _, _ => false

/-- `a >= b` on model numbers. -/
def jsNumGe : Option Int → Option Int → Bool
  | some a, some b => a ≥ b
  | _, _ => false

/-- `a < b` on model numbers. -/
def jsNumLt : Option Int → Option Int → Bool
  | some a, some b => a < b
  | _, _ => false

/-- `a <= b` on model numbers. -/
def jsNumLe : Option Int → Option Int → Bool
  | some a, some b => a ≤ b
  | _, _ => false

/-- `hay.includes(need)` for character lists (JS `String.prototype.includes`). -/
def charsContains (hay need : List Char) : Bool :=
  match hay with
  | [] => need.isEmpty
  | _ :: t => need.isPrefixOf hay || charsContains t need

/-- JS `hay.includes(need)` on strings. -/
def strIncludes (hay need : String) : Bool :=
  charsContains hay.data need.data

/-- `compareValues` from `src/utils/index.ts`: type-aware filter predicate.
`x.toString()` on the filter value is modelled by the total `String(x)`
coercion (the source would throw for a `null` filter value in the string
branch; no verified claim reaches that case). -/
def compareValues (dataValue filterValue : JSVal) (operator dataType : String) : Bool :=
  if dataValue.isNullish then false
  else
    match dataType with
    | "string" =>
        let str := strToLower (jsToString dataValue)
        let filter := strToLower (jsToString filterValue)
        match operator with
        | "eq" => str == filter
        | "contains" => strIncludes str filter
        | "startsWith" => filter.data.isPrefixOf str.data
        | "endsWith" => filter.data.isSuffixOf str.data
        | _ => strIncludes str filter
    | "number" =>
        let num := jsParseFloat dataValue
        let filterNum := jsParseFloat filterValue
        match operator with
        | "eq" => jsNumEq num filterNum
        | "gt" => jsNumGt num filterNum
        | "gte" => jsNumGe num filterNum
        | "lt" => jsNumLt num filterNum
        | "lte" => jsNumLe num filterNum
        | _ => jsNumEq num filterNum
    | "date" =>
        let date := jsDateGetTime dataValue
        let filterDate := jsDateGetTime filterValue
        match operator with
        | "eq" => jsNumEq date filterDate
        | "gt" => jsNumGt date filterDate
        | "gte" => jsNumGe date filterDate
        | "lt" => jsNumLt date filterDate
        | "lte" => jsNumLe date filterDate
        | _ => jsNumEq date filterDate
    | "datetime" =>
        let date := jsDateGetTime dataValue
        let filterDate := jsDateGetTime filterValue
        match operator with
        | "eq" => jsNumEq date filterDate
        | "gt" => jsNumGt date filterDate
        | "gte" => jsNumGe date filterDate
        | "lt" => jsNumLt date filterDate
        | "lte" => jsNumLe date filterDate
        | _ => jsNumEq date filterDate
    | "boolean" => JSVal.truthy dataValue == JSVal.truthy filterValue
    | _ => strIncludes (strToLower (jsToString dataValue)) (strToLower (jsToString filterValue))

/-- C6: the value comparator returns `false` whenever the data value is
`null` or `undefined`, for every filter value, operator and data type. -/
theorem compareValues_nullish_false :
    ∀ (filterValue : JSVal) (operator dataType : String),
      compareValues JSVal.vNull filterValue operator dataType = false ∧
      compareValues JSVal.vUndefined filterValue operator dataType = false :=
  fun _ _ _ => ⟨rfl, rfl⟩

/-! ### Rows and `sortData` (`src/utils/index.ts`) -/

/-- A row is a JavaScript object: a finite map from field names to values. -/
abbrev Row := List (String × JSVal)

/-- Property read `row[column]` on a row object; `undefined` when the
field is absent. -/
def rowGet (row : Row) (col : String) : JSVal :=
  (row.lookup col).getD JSVal.vUndefined

/-- The TypeScript union type `'asc' | 'desc'`. -/
inductive SortDir where
  | asc
  | desc
deriving DecidableEq

/-- Natural-sort collation chunks of a character list, with explicit fuel
(always called with enough fuel): maximal digit runs become `[0, value]`
(so runs compare numerically, before any text chunk), other runs become
`1 ::` their character codes (so text compares lexicographically). -/
def collChunksF : Nat → List Char → List (List Nat)
  | 0, _ => []
  | _, [] => []
  | fuel + 1, c :: cs =>
      if c.isDigit then
        [0, (c :: cs.takeWhile Char.isDigit).foldl (fun n ch => 10 * n + (ch.toNat - 48)) 0]
          :: collChunksF fuel (cs.dropWhile Char.isDigit)
      else
        (1 :: (c :: cs.takeWhile (fun x => !x.isDigit)).map Char.toNat)
          :: collChunksF fuel (cs.dropWhile (fun x => !x.isDigit))

/-- Collation key of a string for the numeric-aware comparison. -/
def collKey (s : String) : List (List Nat) :=
  collChunksF s.data.length s.data

/-- Lexicographic strict order on collation keys. -/
abbrev keyLt (a b : List (List Nat)) : Prop :=
  List.Lex (List.Lex (· < ·)) a b

/-- Model of `a.localeCompare(b, undefined, numeric-aware)` from the
sort comparator: negative / zero / positive according to the collation
keys.  Two strings whose digit runs have equal numeric value (such as
`"01"` and `"1"`) compare equal, matching numeric collation. -/
def locCmp (a b : String) : Int :=
  if keyLt (collKey a) (collKey b) then -1
  else if keyLt (collKey b) (collKey a) then 1
  else 0

/-- The comparator passed to `Array.prototype.sort` by `sortData`:
nullish values compare last regardless of direction (these branches
return before the direction flip is applied); otherwise the lowercased
string representations are compared, and `desc` negates the result. -/
def jsSortCmp (col : String) (dir : SortDir) (a b : Row) : Int :=
  let aVal := rowGet a col
  let bVal := rowGet b col
  if aVal.isNullish && bVal.isNullish then 0
  else if aVal.isNullish then 1
  else if bVal.isNullish then -1
  else
    let result := locCmp (strToLower (jsToString aVal)) (strToLower (jsToString bVal))
    if dir = SortDir.desc then -result else result

/-- The non-strict order induced by the comparator (`cmp a b ≤ 0` keeps
`a` before `b`); `Array.prototype.sort` is required to be stable, so it
is modelled by a stable insertion sort with respect to this relation. -/
abbrev leRow (col : String) (dir : SortDir) (a b : Row) : Prop :=
  jsSortCmp col dir a b ≤ 0

/-- `sortData` from `src/utils/index.ts`: returns the input for an empty
column name, otherwise a stably sorted copy of the input. -/
def sortData (data : List Row) (sortColumn : String) (direction : SortDir) : List Row :=
  if sortColumn = "" then data
  else data.insertionSort (fun a b => jsSortCmp sortColumn direction a b ≤ 0)

lemma keyLt_asymm {x y : List (List Nat)} (h : keyLt x y) : ¬ keyLt y x :=
  asymm h

lemma keyLt_trichot (x y : List (List Nat)) : keyLt x y ∨ x = y ∨ keyLt y x :=
  trichotomous x y

lemma keyLt_trans {x y z : List (List Nat)} (h₁ : keyLt x y) (h₂ : keyLt y z) : keyLt x z :=
  IsTrans.trans x y z h₁ h₂

lemma keyLt_irrefl (x : List (List Nat)) : ¬ keyLt x x :=
  fun hh => keyLt_asymm hh hh

lemma locCmp_swap (a b : String) : locCmp a b = -locCmp b a := by
  unfold locCmp
  rcases keyLt_trichot (collKey a) (collKey b) with h | h | h
  · simp [h, keyLt_asymm h]
  · rw [h]
    simp [keyLt_irrefl]
  · simp [h, keyLt_asymm h]

lemma locCmp_le_zero {a b : String} : locCmp a b ≤ 0 ↔ ¬ keyLt (collKey b) (collKey a) := by
  unfold locCmp
  rcases keyLt_trichot (collKey a) (collKey b) with h | h | h
  · simp [h, keyLt_asymm h]
  · rw [h]
    simp [keyLt_irrefl]
  · simp [h, keyLt_asymm h]

lemma locCmp_le_trans {a b c : String} (h₁ : locCmp a b ≤ 0) (h₂ : locCmp b c ≤ 0) :
    locCmp a c ≤ 0 := by
  rw [locCmp_le_zero] at h₁ h₂ ⊢
  intro hca
  rcases keyLt_trichot (collKey b) (collKey c) with h | h | h
  · exact h₁ (keyLt_trans h hca)
  · exact h₁ (by rw [h]; exact hca)
  · exact h₂ h

lemma jsSortCmp_null_null {col : String} {a b : Row} (dir : SortDir)
    (ha : (rowGet a col).isNullish = true) (hb : (rowGet b col).isNullish = true) :
    jsSortCmp col dir a b = 0 := by
  unfold jsSortCmp
  simp [ha, hb]

lemma jsSortCmp_null_left {col : String} {a b : Row} (dir : SortDir)
    (ha : (rowGet a col).isNullish = true) (hb : (rowGet b col).isNullish = false) :
    jsSortCmp col dir a b = 1 := by
  unfold jsSortCmp
  simp [ha, hb]

lemma jsSortCmp_null_right {col : String} {a b : Row} (dir : SortDir)
    (ha : (rowGet a col).isNullish = false) (hb : (rowGet b col).isNullish = true) :
    jsSortCmp col dir a b = -1 := by
  unfold jsSortCmp
  simp [ha, hb]

lemma jsSortCmp_asc_nn {col : String} {a b : Row}
    (ha : (rowGet a col).isNullish = false) (hb : (rowGet b col).isNullish = false) :
    jsSortCmp col SortDir.asc a b
      = locCmp (strToLower (jsToString (rowGet a col))) (strToLower (jsToString (rowGet b col))) := by
  unfold jsSortCmp
  simp [ha, hb]

lemma jsSortCmp_desc_eq_neg_asc {col : String} {a b : Row}
    (ha : (rowGet a col).isNullish = false) (hb : (rowGet b col).isNullish = false) :
    jsSortCmp col SortDir.desc a b = -jsSortCmp col SortDir.asc a b := by
  unfold jsSortCmp
  simp [ha, hb]

lemma jsSortCmp_swap (col : String) (dir : SortDir) (a b : Row) :
    jsSortCmp col dir a b = -jsSortCmp col dir b a := by
  cases ha : (rowGet a col).isNullish <;> cases hb : (rowGet b col).isNullish
  · cases dir with
    | asc =>
        rw [jsSortCmp_asc_nn ha hb, jsSortCmp_asc_nn hb ha,
          locCmp_swap (strToLower (jsToString (rowGet a col)))]
    | desc =>
        rw [jsSortCmp_desc_eq_neg_asc ha hb, jsSortCmp_desc_eq_neg_asc hb ha,
          jsSortCmp_asc_nn ha hb, jsSortCmp_asc_nn hb ha,
          locCmp_swap (strToLower (jsToString (rowGet a col)))]
  · rw [jsSortCmp_null_right dir ha hb, jsSortCmp_null_left dir hb ha]
  · rw [jsSortCmp_null_left dir ha hb, jsSortCmp_null_right dir hb ha]
    omega
  · rw [jsSortCmp_null_null dir ha hb, jsSortCmp_null_null dir hb ha]
    omega

lemma leRow_total (col : String) (dir : SortDir) (a b : Row) :
    leRow col dir a b ∨ leRow col dir b a := by
  have h := jsSortCmp_swap col dir a b
  unfold leRow
  omega

lemma leRow_trans {col : String} {dir : SortDir} {a b c : Row}
    (hab : leRow col dir a b) (hbc : leRow col dir b c) : leRow col dir a c := by
  unfold leRow at *
  cases ha : (rowGet a col).isNullish <;> cases hb : (rowGet b col).isNullish <;>
    cases hc : (rowGet c col).isNullish
  · -- all three non-null: comparison through collation keys
    cases dir with
    | asc =>
        rw [jsSortCmp_asc_nn ha hb] at hab
        rw [jsSortCmp_asc_nn hb hc] at hbc
        rw [jsSortCmp_asc_nn ha hc]
        exact locCmp_le_trans hab hbc
    | desc =>
        rw [jsSortCmp_desc_eq_neg_asc ha hb, jsSortCmp_asc_nn ha hb] at hab
        rw [jsSortCmp_desc_eq_neg_asc hb hc, jsSortCmp_asc_nn hb hc] at hbc
        rw [jsSortCmp_desc_eq_neg_asc ha hc, jsSortCmp_asc_nn ha hc]
        have h1 : locCmp (strToLower (jsToString (rowGet b col))) (strToLower (jsToString (rowGet a col))) ≤ 0 := by
          have := locCmp_swap (strToLower (jsToString (rowGet a col))) (strToLower (jsToString (rowGet b col)))
          omega
        have h2 : locCmp (strToLower (jsToString (rowGet c col))) (strToLower (jsToString (rowGet b col))) ≤ 0 := by
          have := locCmp_swap (strToLower (jsToString (rowGet b col))) (strToLower (jsToString (rowGet c col)))
          omega
        have h3 := locCmp_le_trans h2 h1
        have := locCmp_swap (strToLower (jsToString (rowGet c col))) (strToLower (jsToString (rowGet a col)))
        omega
  · rw [jsSortCmp_null_right dir ha hc]
    omega
  · rw [jsSortCmp_null_left dir hb hc] at hbc
    omega
  · rw [jsSortCmp_null_right dir ha hc]
    omega
  · rw [jsSortCmp_null_left dir ha hb] at hab
    omega
  · rw [jsSortCmp_null_left dir ha hb] at hab
    omega
  · rw [jsSortCmp_null_left dir hb hc] at hbc
    omega
  · rw [jsSortCmp_null_null dir ha hc]

lemma leRow_null_mono {col : String} {dir : SortDir} {a b : Row}
    (h : leRow col dir a b) (ha : (rowGet a col).isNullish = true) :
    (rowGet b col).isNullish = true := by
  cases hb : (rowGet b col).isNullish
  · unfold leRow at h
    rw [jsSortCmp_null_left dir ha hb] at h
    omega
  · rfl

lemma sortData_perm (l : List Row) (col : String) (dir : SortDir) :
    (sortData l col dir).Perm l := by
  unfold sortData
  split
  · exact List.Perm.refl l
  · exact List.perm_insertionSort _ l

lemma sortData_sorted (l : List Row) {col : String} (dir : SortDir) (h : col ≠ "") :
    (sortData l col dir).Pairwise (leRow col dir) := by
  unfold sortData
  rw [if_neg h]
  haveI : IsTotal Row (leRow col dir) := ⟨leRow_total col dir⟩
  haveI : IsTrans Row (leRow col dir) := ⟨fun _ _ _ => leRow_trans⟩
  exact List.sorted_insertionSort _ l

/-- C5: `sortData` returns the input unchanged for an empty column,
always returns a reordering (permutation) of the input — the input list
itself is never mutated, reordering happens on a copy — and, for a
nonempty sort column, places every row with a nullish value in the sort
column after all rows with non-nullish values, in both directions. -/
theorem sortData_contract :
    ∀ (l : List Row) (col : String) (dir : SortDir),
      sortData l "" dir = l ∧
      (sortData l col dir).Perm l ∧
      (col ≠ "" → (sortData l col dir).Pairwise
        (fun a b => (rowGet a col).isNullish = true → (rowGet b col).isNullish = true)) := by
  intro l col dir
  refine ⟨rfl, sortData_perm l col dir, fun h => ?_⟩
  exact (sortData_sorted l dir h).imp (fun hab ha => leRow_null_mono hab ha)

/-- C5 witness: on a concrete two-row list whose second row is `null` in
column `"x"`, the sorted output satisfies the nulls-last property. -/
theorem sortData_contract_witness :
    (sortData [[("x", JSVal.vNum 2)], [("x", JSVal.vNull)]] "x" SortDir.asc).Pairwise
      (fun a b => (rowGet a "x").isNullish = true → (rowGet b "x").isNullish = true) :=
  (sortData_contract [[("x", JSVal.vNum 2)], [("x", JSVal.vNull)]] "x" SortDir.asc).2.2
    (by decide)

/-- C5 counterexample: with the empty column name — which the claim
quantifies over — `sortData` returns its input unchanged, so a row that
is nullish in the field named `""` can stay in front of a non-nullish
one, contradicting the unconditional nulls-last part of the claim. -/
theorem sortData_nulls_last_cex :
    (rowGet [("", JSVal.vNull)] "").isNullish = true ∧
    (rowGet [("", JSVal.vNum 1)] "").isNullish = false ∧
    ¬ (sortData [[("", JSVal.vNull)], [("", JSVal.vNum 1)]] "" SortDir.asc).Pairwise
        (fun a b => (rowGet a "").isNullish = true → (rowGet b "").isNullish = true) := by
  refine ⟨rfl, rfl, ?_⟩
  decide

/-- C3 (amended): for a nonempty sort column, a list of rows none of
which is nullish in that column, and pairwise non-equivalent sort keys
(the comparator never returns 0 between two list positions), reversing
the ascending sort yields exactly the descending sort. -/
theorem sortData_reverse_asc_eq_desc (l : List Row) (col : String) (hcol : col ≠ "")
    (hnn : ∀ r ∈ l, (rowGet r col).isNullish = false)
    (hne : l.Pairwise (fun a b => jsSortCmp col SortDir.asc a b ≠ 0)) :
    (sortData l col SortDir.asc).reverse = sortData l col SortDir.desc := by
  have permA := sortData_perm l col SortDir.asc
  have permD := sortData_perm l col SortDir.desc
  have sortedA := sortData_sorted l SortDir.asc hcol
  have sortedD := sortData_sorted l SortDir.desc hcol
  have symNe : ∀ {a b : Row},
      jsSortCmp col SortDir.asc a b ≠ 0 → jsSortCmp col SortDir.asc b a ≠ 0 := by
    intro a b h
    have hs := jsSortCmp_swap col SortDir.asc b a
    omega
  have neA := (List.Perm.pairwise_iff symNe permA).mpr hne
  have neD := (List.Perm.pairwise_iff symNe permD).mpr hne
  have hA : (sortData l col SortDir.asc).reverse.Pairwise
      (fun a b => 0 < jsSortCmp col SortDir.asc a b) := by
    rw [List.pairwise_reverse]
    refine (sortedA.and neA).imp ?_
    intro a b hab
    have hs := jsSortCmp_swap col SortDir.asc b a
    have h1 : jsSortCmp col SortDir.asc a b ≤ 0 := hab.1
    have h2 : jsSortCmp col SortDir.asc a b ≠ 0 := hab.2
    show 0 < jsSortCmp col SortDir.asc b a
    omega
  have memD : ∀ r ∈ sortData l col SortDir.desc, (rowGet r col).isNullish = false :=
    fun r hr => hnn r (permD.mem_iff.mp hr)
  have hD : (sortData l col SortDir.desc).Pairwise
      (fun a b => 0 < jsSortCmp col SortDir.asc a b) := by
    refine List.Pairwise.imp_of_mem ?_ (sortedD.and neD)
    intro a b hma hmb hab
    have h1 : jsSortCmp col SortDir.desc a b ≤ 0 := hab.1
    have h2 : jsSortCmp col SortDir.asc a b ≠ 0 := hab.2
    rw [jsSortCmp_desc_eq_neg_asc (memD a hma) (memD b hmb)] at h1
    show 0 < jsSortCmp col SortDir.asc a b
    omega
  haveI : IsAntisymm Row (fun a b => 0 < jsSortCmp col SortDir.asc a b) := by
    refine ⟨fun a b h1 h2 => ?_⟩
    exfalso
    have hs := jsSortCmp_swap col SortDir.asc a b
    have h1' : 0 < jsSortCmp col SortDir.asc a b := h1
    have h2' : 0 < jsSortCmp col SortDir.asc b a := h2
    omega
  have permRD : (sortData l col SortDir.asc).reverse.Perm (sortData l col SortDir.desc) :=
    ((sortData l col SortDir.asc).reverse_perm.trans permA).trans permD.symm
  exact List.eq_of_perm_of_sorted permRD hA hD

/-- First row of the C3 counterexample: sort key `1` in column `a`. -/
def cexRowA : Row := [("a", JSVal.vNum 1), ("b", JSVal.vNum 1)]

/-- Second row of the C3 counterexample: same sort key, different payload. -/
def cexRowB : Row := [("a", JSVal.vNum 1), ("b", JSVal.vNum 2)]

/-- C3 counterexample: two distinct rows with equal (non-null) values in
the sort column.  The stable sort keeps their original order in both
directions, so reversing the ascending result does not equal the
descending result even though no value is null. -/
theorem sortData_reverse_asc_ne_desc_cex :
    (rowGet cexRowA "a").isNullish = false ∧
    (rowGet cexRowB "a").isNullish = false ∧
    (sortData [cexRowA, cexRowB] "a" SortDir.asc).reverse
      ≠ sortData [cexRowA, cexRowB] "a" SortDir.desc := by
  refine ⟨rfl, rfl, fun h => ?_⟩
  exact absurd (congrArg (List.map (fun r => jsToString (rowGet r "b"))) h) (by decide)

/-- C3 witness: a concrete three-row instance with pairwise distinct,
non-null keys, where reversing the ascending sort equals the descending
sort. -/
theorem sortData_reverse_asc_eq_desc_witness :
    (sortData [[("a", JSVal.vNum 2)], [("a", JSVal.vNum 10)], [("a", JSVal.vNum 1)]]
        "a" SortDir.asc).reverse
      = sortData [[("a", JSVal.vNum 2)], [("a", JSVal.vNum 10)], [("a", JSVal.vNum 1)]]
        "a" SortDir.desc :=
  sortData_reverse_asc_eq_desc
    [[("a", JSVal.vNum 2)], [("a", JSVal.vNum 10)], [("a", JSVal.vNum 1)]]
    "a" (by decide) (by decide) (by decide)

/-! ### `mapServerResponse` (`src/utils/index.ts`) -/

/-- Property access `obj[key]` on a JS value: throws a `TypeError` for
`null`/`undefined`, looks up object fields, exposes `length` on arrays
and strings, and yields `undefined` on other primitives.  (Numeric index
properties of arrays are not modelled; the normalizer only reads named
keys.) -/
def jsGet : JSVal → String → Except Unit JSVal
  | .vNull, _ => .error ()
  | .vUndefined, _ => .error ()
  | .vObj fields, k => .ok ((fields.lookup k).getD .vUndefined)
  | .vArr xs, k => .ok (if k = "length" then .vNum xs.length else .vUndefined)
  | .vStr s, k => .ok (if k = "length" then .vNum s.length else .vUndefined)
  | .vNum _, _ => .ok .vUndefined
  | .vBool _, _ => .ok .vUndefined

mutual
/-- `JSON.stringify`, used by the normalizer for the cursor-store
(`LastEvaluatedKey`) branch.  String escaping is not modelled; the
verified claims never inspect this output. -/
def jsonStringify : JSVal → String
  | .vNull => "null"
  | .vUndefined => "null"
  | .vBool b => if b then "true" else "false"
  | .vNum n => toString n
  | .vStr s => "\"" ++ s ++ "\""
  | .vArr xs => "[" ++ jsonStringifyList xs ++ "]"
  | .vObj fs => "\x7b" ++ jsonStringifyFields fs ++ "\x7d"

/-- Comma-joined `JSON.stringify` of array elements. -/
def jsonStringifyList : List JSVal → String
  | [] => ""
  | [x] => jsonStringify x
  | x :: y :: rest => jsonStringify x ++ "," ++ jsonStringifyList (y :: rest)

/-- Comma-joined `JSON.stringify` of object fields. -/
def jsonStringifyFields : List (String × JSVal) → String
  | [] => ""
  | [(k, x)] => "\"" ++ k ++ "\":" ++ jsonStringify x
  | (k, x) :: y :: rest =>
      "\"" ++ k ++ "\":" ++ jsonStringify x ++ "," ++ jsonStringifyFields (y :: rest)
end

/-- The canonical shape produced by `mapServerResponse` (the runtime
shape of the TS `ServerResponse<T>` value it builds).  `Items`,
`ContinuationToken` and `Count` keep their dynamic `JSVal` type because
the cursor-store branch can in fact propagate non-array `Items` and an
arbitrary `Count`; `HasMore` is always a boolean. -/
structure NormalizedResponse where
  Items : JSVal
  ContinuationToken : JSVal
  HasMore : Bool
  Count : JSVal

/-- The `getValue` helper inside `mapServerResponse`: returns the first
key whose value is defined, else `undefined`; propagates the `TypeError`
of property access on a nullish object. -/
def getValue (obj : JSVal) : List String → Except Unit JSVal
  | [] => .ok .vUndefined
  | k :: ks =>
      match jsGet obj k with
      | .error e => .error e
      | .ok .vUndefined => getValue obj ks
      | .ok v => .ok v

/-- Total property access `obj[key]` for the object positions that the
normalizer only ever reaches with a non-nullish object (any nullish
object would already have thrown inside the first `getValue`); agrees
with `jsGet` everywhere `jsGet` does not throw. -/
def jsGetD : JSVal → String → JSVal
  | .vNull, _ => .vUndefined
  | .vUndefined, _ => .vUndefined
  | .vObj fields, k => (fields.lookup k).getD .vUndefined
  | .vArr xs, k => if k = "length" then .vNum xs.length else .vUndefined
  | .vStr s, k => if k = "length" then .vNum s.length else .vUndefined
  | .vNum _, _ => .vUndefined
  | .vBool _, _ => .vUndefined

/-- The branch structure of `mapServerResponse` after the four
`getValue` lookups succeeded: raw arrays map directly, the AWS DynamoDB
shape (`Items` + `LastEvaluatedKey`, both truthy) is special-cased, and
everything else takes the standard mapping with defaults. -/
def normalizeDefined (data items continuationToken hasMore count : JSVal) :
    NormalizedResponse :=
  match data with
  | .vArr xs =>
      -- direct mapping for arrays
      ⟨data, .vUndefined, false, .vNum xs.length⟩
  | _ =>
      -- AWS DynamoDB style response (special case)
      let dItems := jsGetD data "Items"
      let dKey := jsGetD data "LastEvaluatedKey"
      if dItems.truthy && dKey.truthy then
        ⟨dItems, .vStr (jsonStringify dKey), dKey.truthy,
         if (jsGetD data "Count").truthy then jsGetD data "Count"
         else jsGetD dItems "length"⟩
      else
        -- standard response mapping
        ⟨(match items with | .vArr _ => items | _ => .vArr []),
         continuationToken, hasMore.truthy,
         .vNum ((jsToNumber count).getD 0)⟩

/-- `mapServerResponse` from `src/utils/index.ts`: flexible-casing
normalization of a server response.  The `Except` layer models the
`TypeError` thrown by JavaScript property access on `null`/`undefined`
input: exactly the four `getValue` lookups can throw (all on the same
nullish `data`, so the 4-way match propagates the same `TypeError` the
source's first lookup raises); every later property access happens on a
value already known to be non-nullish and is total (`jsGetD`). -/
def mapServerResponse (data : JSVal) : Except Unit NormalizedResponse :=
  match getValue data ["Items", "items", "data", "Data"],
        getValue data ["ContinuationToken", "continuationToken", "continuationtoken",
                       "nextToken", "next_token", "NextToken"],
        getValue data ["HasMore", "hasMore", "hasmore", "has_more",
                       "hasNextPage", "has_next_page"],
        getValue data ["Count", "count", "COUNT", "total", "Total", "length", "size"] with
  | .ok items, .ok continuationToken, .ok hasMore, .ok count =>
      .ok (normalizeDefined data items continuationToken hasMore count)
  | _, _, _, _ => .error ()

lemma jsGet_isOk {v : JSVal} (hv : v.isNullish = false) (k : String) :
    ∃ w, jsGet v k = Except.ok w := by
  cases v with
  | vNull => simp [JSVal.isNullish] at hv
  | vUndefined => simp [JSVal.isNullish] at hv
  | vBool b => exact ⟨_, rfl⟩
  | vNum n => exact ⟨_, rfl⟩
  | vStr s => exact ⟨_, rfl⟩
  | vArr xs => exact ⟨_, rfl⟩
  | vObj fs => exact ⟨_, rfl⟩

lemma jsGet_ok_eq_jsGetD {v w : JSVal} {k : String} (h : jsGet v k = Except.ok w) :
    jsGetD v k = w := by
  cases v <;> simp_all [jsGet, jsGetD]

lemma getValue_isOk {v : JSVal} (hv : v.isNullish = false) (keys : List String) :
    ∃ w, getValue v keys = Except.ok w := by
  induction keys with
  | nil => exact ⟨_, rfl⟩
  | cons k ks ih =>
      obtain ⟨w, hw⟩ := jsGet_isOk hv k
      obtain ⟨w', hw'⟩ := ih
      cases w with
      | vUndefined => exact ⟨w', by rw [getValue, hw]; exact hw'⟩
      | vNull => exact ⟨.vNull, by rw [getValue, hw]⟩
      | vBool b => exact ⟨.vBool b, by rw [getValue, hw]⟩
      | vNum n => exact ⟨.vNum n, by rw [getValue, hw]⟩
      | vStr s => exact ⟨.vStr s, by rw [getValue, hw]⟩
      | vArr xs => exact ⟨.vArr xs, by rw [getValue, hw]⟩
      | vObj fs => exact ⟨.vObj fs, by rw [getValue, hw]⟩

lemma getValue_cons_undef {v : JSVal} {k : String} {ks : List String}
    (h : getValue v (k :: ks) = Except.ok JSVal.vUndefined) :
    jsGet v k = Except.ok JSVal.vUndefined ∧ getValue v ks = Except.ok JSVal.vUndefined := by
  rw [getValue] at h
  cases hw : jsGet v k with
  | error e => rw [hw] at h; cases h
  | ok w =>
      rw [hw] at h
      cases w <;> simp_all

lemma normalizeDefined_default {v : JSVal} (tok : JSVal)
    (hnarr : ∀ xs, v ≠ JSVal.vArr xs) (hI : jsGetD v "Items" = JSVal.vUndefined) :
    normalizeDefined v JSVal.vUndefined tok JSVal.vUndefined JSVal.vUndefined
      = ⟨JSVal.vArr [], tok, false, JSVal.vNum 0⟩ := by
  cases v with
  | vArr xs => exact absurd rfl (hnarr xs)
  | vNull => simp [normalizeDefined, hI, JSVal.truthy, jsToNumber]
  | vUndefined => simp [normalizeDefined, hI, JSVal.truthy, jsToNumber]
  | vBool b => simp [normalizeDefined, hI, JSVal.truthy, jsToNumber]
  | vNum n => simp [normalizeDefined, hI, JSVal.truthy, jsToNumber]
  | vStr s => simp [normalizeDefined, hI, JSVal.truthy, jsToNumber]
  | vObj fs => simp [normalizeDefined, hI, JSVal.truthy, jsToNumber]

/-- C4 (amended): for every input that is not `null`/`undefined` the
normalizer never throws; and whenever the input is additionally not an
array and none of the recognized items / hasMore / count keys yields a
defined value, the result degrades to the default page: empty `Items`,
`HasMore = false`, `Count = 0` (with whatever continuation-token lookup
produced). -/
theorem mapServerResponse_no_throw_default (v : JSVal) (hv : v.isNullish = false) :
    (∃ r, mapServerResponse v = Except.ok r) ∧
    ((∀ xs, v ≠ JSVal.vArr xs) →
     getValue v ["Items", "items", "data", "Data"] = Except.ok JSVal.vUndefined →
     getValue v ["HasMore", "hasMore", "hasmore", "has_more",
                 "hasNextPage", "has_next_page"] = Except.ok JSVal.vUndefined →
     getValue v ["Count", "count", "COUNT", "total", "Total", "length", "size"]
        = Except.ok JSVal.vUndefined →
     ∃ tok, mapServerResponse v = Except.ok ⟨JSVal.vArr [], tok, false, JSVal.vNum 0⟩) := by
  obtain ⟨w2, h2⟩ := getValue_isOk hv ["ContinuationToken", "continuationToken",
    "continuationtoken", "nextToken", "next_token", "NextToken"]
  constructor
  · obtain ⟨w1, h1⟩ := getValue_isOk hv ["Items", "items", "data", "Data"]
    obtain ⟨w3, h3⟩ := getValue_isOk hv ["HasMore", "hasMore", "hasmore", "has_more",
      "hasNextPage", "has_next_page"]
    obtain ⟨w4, h4⟩ := getValue_isOk hv ["Count", "count", "COUNT", "total", "Total",
      "length", "size"]
    refine ⟨normalizeDefined v w1 w2 w3 w4, ?_⟩
    rw [mapServerResponse, h1, h2, h3, h4]
  · intro hnarr hitems hhm hcnt
    have hI' : jsGetD v "Items" = JSVal.vUndefined :=
      jsGet_ok_eq_jsGetD (getValue_cons_undef hitems).1
    refine ⟨w2, ?_⟩
    rw [mapServerResponse, hitems, h2, hhm, hcnt]
    show Except.ok (normalizeDefined v JSVal.vUndefined w2 JSVal.vUndefined JSVal.vUndefined)
      = Except.ok (⟨JSVal.vArr [], w2, false, JSVal.vNum 0⟩ : NormalizedResponse)
    rw [normalizeDefined_default w2 hnarr hI']

/-- C4 witness: an object with a single unrecognized field is not
nullish and matches no recognized shape, so normalization succeeds and
yields the default empty page. -/
theorem mapServerResponse_no_throw_default_witness :
    (∃ r, mapServerResponse (JSVal.vObj [("foo", JSVal.vNum 1)]) = Except.ok r) ∧
    (∃ tok, mapServerResponse (JSVal.vObj [("foo", JSVal.vNum 1)])
        = Except.ok ⟨JSVal.vArr [], tok, false, JSVal.vNum 0⟩) := by
  have h := mapServerResponse_no_throw_default (JSVal.vObj [("foo", JSVal.vNum 1)]) rfl
  exact ⟨h.1, h.2 (fun xs hx => JSVal.noConfusion hx) rfl rfl rfl⟩

/-- C4 counterexample: the claim quantifies over every input value, but
`mapServerResponse(null)` throws a `TypeError` (property access on
`null`), and an input carrying only a recognized `has_more` key — which
has no recognized items field, hence "matches no recognized shape" in
the claim's sense — yields `HasMore = true`, not `false`. -/
theorem mapServerResponse_cex :
    mapServerResponse JSVal.vNull = Except.error () ∧
    mapServerResponse (JSVal.vObj [("has_more", JSVal.vBool true)])
      = Except.ok ⟨JSVal.vArr [], JSVal.vUndefined, true, JSVal.vNum 0⟩ :=
  ⟨rfl, rfl⟩

/-- C7: normalizing the PascalCase object with fields `Items`, `HasMore`,
`Count` and the camelCase object with fields `items`, `hasMore`, `count`
yields identical canonical output for every items array, boolean flag
and count. -/
theorem mapServerResponse_casing (items : List JSVal) (hm : Bool) (c : Int) :
    mapServerResponse (JSVal.vObj
        [("Items", JSVal.vArr items), ("HasMore", JSVal.vBool hm), ("Count", JSVal.vNum c)])
      = mapServerResponse (JSVal.vObj
        [("items", JSVal.vArr items), ("hasMore", JSVal.vBool hm), ("count", JSVal.vNum c)]) :=
  rfl

/-! ### The grid state engine (`useDataGrid`, continuation-token version) -/

/-- TS `ActiveFilter`. -/
structure ActiveFilter where
  column : String
  operator : String
  value : JSVal
  dataType : String
  label : String

/-- `Omit<ActiveFilter, 'label'>`: the argument of `addFilter`. -/
structure FilterInput where
  column : String
  operator : String
  value : JSVal
  dataType : String

/-- TS `SortConfig`. -/
structure SortConfig where
  column : String
  direction : SortDir

/-- TS `ServerRequest` — the outbound wire shape.  The interface carries
no sort column and no sort direction. -/
structure ServerRequest where
  page : Int
  pageSize : Int
  search : String
  filters : List ActiveFilter
  continuationToken : Option String

/-- TS `ServerResponse<T>` as consumed by the engine (typed view of the
normalized response). -/
structure ServerResponse where
  Items : List Row
  ContinuationToken : Option String
  HasMore : Bool
  Count : Int

/-- TS `PaginationInfo`.  The source field `end` is named `stop` here
(`end` is a Lean keyword). -/
structure PaginationInfo where
  currentPage : Int
  totalPages : Int
  pageSize : Int
  totalRecords : Int
  start : Int
  stop : Int
  hasNext : Bool
  hasPrevious : Bool
  continuationToken : Option String

/-- The engine state: the `useState` cells of the hook plus the two
mode-determining props (`data`, `endpoint`) which are fixed per
instance.  `selectedRows` models the `Set<string>` as a list of ids. -/
structure GridState where
  staticData : Option (List Row)
  endpoint : Option String
  serverPageSize : Int
  loading : Bool
  error : Option String
  serverData : List Row
  lastServerResponse : Option ServerResponse
  searchTerm : String
  activeFilters : List ActiveFilter
  sortConfig : SortConfig
  selectedRows : List String
  currentPage : Int
  currentPageSize : Int
  continuationToken : Option String
  tokenHistory : List String

/-- The initial state of the hook (`useState` initializers), given the
mode-determining props and the `pageSize`/`serverPageSize` props. -/
def initialState (staticData : Option (List Row)) (endpoint : Option String)
    (pageSize serverPageSize : Int) : GridState :=
  ⟨staticData, endpoint, serverPageSize, false, none, [], none, "", [],
   ⟨"", SortDir.asc⟩, [], 1, pageSize, none, []⟩

/-- `staticData || serverData` (a provided static array is always
truthy, even when empty). -/
def sourceData (s : GridState) : List Row :=
  s.staticData.getD s.serverData

/-- One row of the global search: `Object.values(row).some(value =>
value?.toString().toLowerCase().includes(searchTerm.toLowerCase()))`. -/
def rowMatchesSearch (term : String) (row : Row) : Bool :=
  row.any fun kv =>
    !kv.2.isNullish && strIncludes (strToLower (jsToString kv.2)) (strToLower term)

/-- `processedData`: search → filters (both client-side, static mode
only) → sorting (always local). -/
def processedData (s : GridState) : List Row :=
  let p0 := sourceData s
  let p1 := if s.searchTerm ≠ "" ∧ s.staticData.isSome then
      p0.filter (rowMatchesSearch s.searchTerm)
    else p0
  let p2 := if s.staticData.isSome then
      s.activeFilters.foldl
        (fun acc f => acc.filter fun row =>
          compareValues (rowGet row f.column) f.value f.operator f.dataType) p1
    else p1
  if s.sortConfig.column ≠ "" then
    sortData p2 s.sortConfig.column s.sortConfig.direction
  else p2

/-- `Math.ceil(len / ps)` for a natural `len` and positive `ps`.
(For `ps ≤ 0` JavaScript would produce `Infinity`/`NaN`; this is not
modelled and the theorems below assume a positive page size.) -/
def jsCeilDiv (len ps : Int) : Int :=
  (len + ps - 1) / ps

/-- `paginationInfo`: server-mode branch when a server response has been
seen, otherwise the client-side page math over `processedData`. -/
def paginationInfo (s : GridState) : PaginationInfo :=
  match s.staticData, s.lastServerResponse with
  | none, some resp =>
      let displayedCount : Int := (sourceData s).length
      ⟨s.currentPage, 1, s.currentPageSize, resp.Count,
       if displayedCount = 0 then 0 else 1, displayedCount,
       resp.HasMore, decide (s.tokenHistory.length > 0), resp.ContinuationToken⟩
  | _, _ =>
      let len : Int := (processedData s).length
      let totalPages := jsCeilDiv len s.currentPageSize
      ⟨s.currentPage, totalPages, s.currentPageSize, len,
       if len = 0 then 0 else (s.currentPage - 1) * s.currentPageSize + 1,
       min (s.currentPage * s.currentPageSize) len,
       decide (s.currentPage < totalPages), decide (s.currentPage > 1), none⟩

/-- Direction argument of a server navigation. -/
inductive NavDir where
  | next
  | previous
deriving DecidableEq

/-- A pending `loadServerData(resetPagination, navigationDirection)`
invocation emitted synchronously by an action. -/
structure FetchCall where
  resetPagination : Bool
  nav : Option NavDir

/-- The `if (!staticData) { setContinuationToken(undefined);
setTokenHistory([]); }` tail shared by the search/filter actions. -/
def resetPagingIfServer (s : GridState) : GridState :=
  if s.staticData.isNone then {s with continuationToken := none, tokenHistory := []}
  else s

/-- `setSort(column)`: toggles the direction on the same column, resets
to ascending on a new one; resets the page only in static mode; never
issues a fetch (sorting is client-side only). -/
def setSort (col : String) (s : GridState) : GridState × List FetchCall :=
  let newSortConfig : SortConfig :=
    ⟨col, if s.sortConfig.column = col ∧ s.sortConfig.direction = SortDir.asc
          then SortDir.desc else SortDir.asc⟩
  let s₁ := {s with sortConfig := newSortConfig}
  (if s.staticData.isSome then {s₁ with currentPage := 1} else s₁, [])

/-- `setPage(page)`: client-side page jump; a warning-level no-op in
server mode. -/
def setPage (page : Int) (s : GridState) : GridState × List FetchCall :=
  if s.staticData.isSome then ({s with currentPage := page}, [])
  else (s, [])

/-- `navigateNext()`: no-op unless `hasNext`; server mode issues a
fetch with direction `next`, client mode increments the page. -/
def navigateNext (s : GridState) : GridState × List FetchCall :=
  if (paginationInfo s).hasNext then
    if s.staticData.isNone then (s, [⟨false, some NavDir.next⟩])
    else setPage (s.currentPage + 1) s
  else (s, [])

/-- `navigatePrevious()`: no-op unless `hasPrevious`; server mode issues
a fetch with direction `previous`, client mode decrements the page. -/
def navigatePrevious (s : GridState) : GridState × List FetchCall :=
  if (paginationInfo s).hasPrevious then
    if s.staticData.isNone then (s, [⟨false, some NavDir.previous⟩])
    else setPage (s.currentPage - 1) s
  else (s, [])

/-- `setPageSize(n)`: resets to page 1; in server mode clears the
continuation state and forces a fresh fetch. -/
def setPageSize (n : Int) (s : GridState) : GridState × List FetchCall :=
  let s₁ := {s with currentPageSize := n, currentPage := 1}
  if s.staticData.isNone then
    ({s₁ with continuationToken := none, tokenHistory := []}, [⟨true, none⟩])
  else (s₁, [])

/-- `updateSearchTerm(term)` (exported as `setSearchTerm`): stores the
term, resets to page 1, clears continuation state in server mode; the
refetch itself comes from the reactive effect, not from this action. -/
def updateSearchTerm (term : String) (s : GridState) : GridState × List FetchCall :=
  (resetPagingIfServer {s with searchTerm := term, currentPage := 1}, [])

/-- The display label computed by `addFilter`:
`` `${column} ${operator} "${value}"` `` with JS string coercion of the
value. -/
def filterLabel (f : FilterInput) : String :=
  f.column ++ " " ++ f.operator ++ " \"" ++ jsToString f.value ++ "\""

/-- `addFilter(filterWithoutLabel)`: drops every filter on the same
column, appends the new one with its computed label, resets to page 1,
clears continuation state in server mode. -/
def addFilter (f : FilterInput) (s : GridState) : GridState × List FetchCall :=
  let newFilters :=
    s.activeFilters.filter (fun g => g.column != f.column)
      ++ [⟨f.column, f.operator, f.value, f.dataType, filterLabel f⟩]
  (resetPagingIfServer {s with activeFilters := newFilters, currentPage := 1}, [])

/-- `removeFilter(index)`: `filter((_, i) => i !== index)` removes
exactly the element at that index (all list positions are distinct),
i.e. `eraseIdx`. -/
def removeFilter (i : Nat) (s : GridState) : GridState × List FetchCall :=
  (resetPagingIfServer {s with activeFilters := s.activeFilters.eraseIdx i,
                               currentPage := 1}, [])

/-- `clearFilters()`. -/
def clearFilters (s : GridState) : GridState × List FetchCall :=
  (resetPagingIfServer {s with activeFilters := [], currentPage := 1}, [])

/-- `refresh()`: static mode resets search, filters, sort and page (and
nothing else — in particular the selection is untouched); server mode
issues a fresh fetch with pagination reset. -/
def refresh (s : GridState) : GridState × List FetchCall :=
  if s.staticData.isSome then
    ({s with searchTerm := "", activeFilters := [],
             sortConfig := ⟨"", SortDir.asc⟩, currentPage := 1}, [])
  else (s, [⟨true, none⟩])

/-- The dependency tuple of the fetch effect
(`useEffect(..., [staticData, searchTerm, activeFilters])`): a reload is
triggered reactively only when one of these changes (note the absence
of the sort configuration). -/
def effectDeps (s : GridState) : Option (List Row) × String × List ActiveFilter :=
  (s.staticData, s.searchTerm, s.activeFilters)

/-- Truthiness of an optional string (`undefined` and `""` are falsy),
for the `if (continuationToken)` / `if (response.ContinuationToken)`
guards. -/
def optTruthy : Option String → Bool
  | some t => t ≠ ""
  | none => false

/-- `err.message || 'An unknown error occurred'` in the error handler. -/
def humanMessage (e : String) : String :=
  if e = "" then "An unknown error occurred" else e

/-- The request token chosen by `loadServerData`: cleared on a
pagination reset, popped from the history on `previous` navigation,
otherwise the stored continuation token. -/
def loadRequestToken (s : GridState) (resetPagination : Bool) (nav : Option NavDir) :
    Option String :=
  if resetPagination then none
  else if nav = some NavDir.previous ∧ s.tokenHistory ≠ [] then s.tokenHistory.getLast?
  else s.continuationToken

/-- The token-state updates `loadServerData` performs before the fetch:
reset clears token, history and page; `previous` pops the history into
the stored token. -/
def applyNavTokenState (s : GridState) (resetPagination : Bool) (nav : Option NavDir) :
    GridState :=
  if resetPagination then
    {s with continuationToken := none, tokenHistory := [], currentPage := 1}
  else if nav = some NavDir.previous ∧ s.tokenHistory ≠ [] then
    {s with tokenHistory := s.tokenHistory.dropLast,
            continuationToken := s.tokenHistory.getLast?}
  else s

/-- The request object literal built by `loadServerData`:
`{ page: currentPage, pageSize: serverPageSize, search: searchTerm,
filters: activeFilters, continuationToken: requestToken }`.  `page` is
the closure's `currentPage` — the `setCurrentPage(1)` of a reset updates
React state, not the local variable. -/
def buildServerRequest (s : GridState) (tok : Option String) : ServerRequest :=
  ⟨s.currentPage, s.serverPageSize, s.searchTerm, s.activeFilters, tok⟩

/-- `loadServerData(resetPagination, navigationDirection)` with the
fetch outcome supplied as `result` (`Except.error` = the rejection of
`createApiRequest`).  Returns the state after completion and the request
that was sent (`none` when the endpoint guard returns early).  The
function is total: the catch block turns every failure into state, and
`finally` clears the loading flag on both paths — nothing is re-thrown. -/
def loadServerData (s : GridState) (resetPagination : Bool) (nav : Option NavDir)
    (result : Except String ServerResponse) : GridState × Option ServerRequest :=
  if s.endpoint = none ∨ s.staticData.isSome then (s, none)
  else
    let s₁ := {s with loading := true, error := none}
    let tok := loadRequestToken s resetPagination nav
    let s₂ := applyNavTokenState s₁ resetPagination nav
    let req := buildServerRequest s tok
    match result with
    | .ok resp =>
        let s₃ := {s₂ with serverData := resp.Items, lastServerResponse := some resp}
        -- `if (navigationDirection === 'next' && continuationToken)`:
        -- push the closure's token onto the history
        let s₄ := if nav = some NavDir.next ∧ optTruthy s.continuationToken then
            {s₃ with tokenHistory := s₃.tokenHistory ++ [s.continuationToken.getD ""]}
          else s₃
        let s₅ := if optTruthy resp.ContinuationToken then
            {s₄ with continuationToken := resp.ContinuationToken}
          else s₄
        ({s₅ with loading := false}, some req)
    | .error e =>
        ({s₂ with error := some (humanMessage e), loading := false}, some req)

/-- The three filter-list mutators of the engine, as a single op type
(the alphabet of C1's operation sequences). -/
inductive FilterOp where
  | add (f : FilterInput)
  | remove (i : Nat)
  | clear

/-- Apply one filter operation to the engine state. -/
def applyFilterOp (s : GridState) : FilterOp → GridState
  | .add f => (addFilter f s).1
  | .remove i => (removeFilter i s).1
  | .clear => (clearFilters s).1

lemma resetPagingIfServer_activeFilters (s : GridState) :
    (resetPagingIfServer s).activeFilters = s.activeFilters := by
  unfold resetPagingIfServer
  split <;> rfl

lemma applyFilterOp_pairwise {s : GridState}
    (h : s.activeFilters.Pairwise (fun f g => f.column ≠ g.column)) (op : FilterOp) :
    (applyFilterOp s op).activeFilters.Pairwise (fun f g => f.column ≠ g.column) := by
  cases op with
  | add f =>
      show ((addFilter f s).1.activeFilters).Pairwise _
      rw [addFilter, resetPagingIfServer_activeFilters]
      rw [List.pairwise_append]
      refine ⟨h.sublist (List.filter_sublist _), List.pairwise_singleton _ _, ?_⟩
      intro g hg b hb
      simp only [List.mem_singleton] at hb
      subst hb
      have := (List.mem_filter.mp hg).2
      simpa using this
  | remove i =>
      show ((removeFilter i s).1.activeFilters).Pairwise _
      rw [removeFilter, resetPagingIfServer_activeFilters]
      exact h.sublist (List.eraseIdx_sublist _ i)
  | clear =>
      show ((clearFilters s).1.activeFilters).Pairwise _
      rw [clearFilters, resetPagingIfServer_activeFilters]
      exact List.Pairwise.nil

lemma foldl_filterOps_pairwise (ops : List FilterOp) :
    ∀ s : GridState, s.activeFilters.Pairwise (fun f g => f.column ≠ g.column) →
      (ops.foldl applyFilterOp s).activeFilters.Pairwise (fun f g => f.column ≠ g.column) := by
  induction ops with
  | nil => exact fun s h => h
  | cons op ops ih =>
      intro s h
      exact ih _ (applyFilterOp_pairwise h op)

/-- C1: starting from an empty filter list, every sequence of
`addFilter` / `removeFilter` / `clearFilters` calls leaves the active
filter list with at most one filter per column; a further `addFilter`
replaces the column's previous filter (the old one is removed, the new
one appended), and the stored label field is exactly
`<column> <operator> "<value>"` built from the new filter's fields. -/
theorem activeFilters_invariant (s₀ : GridState) (ops : List FilterOp) (f : FilterInput)
    (h₀ : s₀.activeFilters = []) :
    (ops.foldl applyFilterOp s₀).activeFilters.Pairwise (fun f g => f.column ≠ g.column) ∧
    (addFilter f (ops.foldl applyFilterOp s₀)).1.activeFilters
      = (ops.foldl applyFilterOp s₀).activeFilters.filter (fun g => g.column != f.column)
        ++ [⟨f.column, f.operator, f.value, f.dataType,
             f.column ++ " " ++ f.operator ++ " \"" ++ jsToString f.value ++ "\""⟩] := by
  constructor
  · exact foldl_filterOps_pairwise ops s₀ (by rw [h₀]; exact List.Pairwise.nil)
  · rw [addFilter, resetPagingIfServer_activeFilters]
    rfl

/-- C1 witness: two `addFilter` calls on column `age` followed by a
third `addFilter` on column `name`, from the empty filter list. -/
theorem activeFilters_invariant_witness :
    (([FilterOp.add ⟨"age", "gte", JSVal.vNum 30, "number"⟩,
       FilterOp.add ⟨"age", "eq", JSVal.vNum 40, "number"⟩].foldl applyFilterOp
        (initialState (some []) none 10 100)).activeFilters.Pairwise
      (fun f g => f.column ≠ g.column)) ∧
    (addFilter ⟨"name", "contains", JSVal.vStr "bob", "string"⟩
        ([FilterOp.add ⟨"age", "gte", JSVal.vNum 30, "number"⟩,
          FilterOp.add ⟨"age", "eq", JSVal.vNum 40, "number"⟩].foldl applyFilterOp
          (initialState (some []) none 10 100))).1.activeFilters
      = ([FilterOp.add ⟨"age", "gte", JSVal.vNum 30, "number"⟩,
          FilterOp.add ⟨"age", "eq", JSVal.vNum 40, "number"⟩].foldl applyFilterOp
          (initialState (some []) none 10 100)).activeFilters.filter
            (fun g => g.column != "name")
        ++ [⟨"name", "contains", JSVal.vStr "bob", "string",
             "name" ++ " " ++ "contains" ++ " \"" ++ jsToString (JSVal.vStr "bob") ++ "\""⟩] :=
  activeFilters_invariant (initialState (some []) none 10 100)
    [FilterOp.add ⟨"age", "gte", JSVal.vNum 30, "number"⟩,
     FilterOp.add ⟨"age", "eq", JSVal.vNum 40, "number"⟩]
    ⟨"name", "contains", JSVal.vStr "bob", "string"⟩ rfl

/-- C2: the request built by `loadServerData` is exactly
`{page, pageSize, search, filters, continuationToken}` taken from the
engine state (the `ServerRequest` interface carries no sort column or
direction), it is invariant under any change of the sort configuration,
and `setSort` alone issues no fetch and leaves the fetch effect's
dependencies (`staticData`, `searchTerm`, `activeFilters`) unchanged —
so a sort change never triggers a server request. -/
theorem serverRequest_no_sort (s : GridState) (reset : Bool) (nav : Option NavDir)
    (result : Except String ServerResponse) (sc : SortConfig) (col : String)
    (hep : s.endpoint ≠ none) (hst : s.staticData = none) :
    (loadServerData s reset nav result).2
      = some ⟨s.currentPage, s.serverPageSize, s.searchTerm, s.activeFilters,
              loadRequestToken s reset nav⟩ ∧
    (loadServerData {s with sortConfig := sc} reset nav result).2
      = (loadServerData s reset nav result).2 ∧
    (setSort col s).2 = [] ∧
    effectDeps (setSort col s).1 = effectDeps s := by
  have hcond : ¬ (s.endpoint = none ∨ s.staticData.isSome = true) := by
    simp [hep, hst]
  refine ⟨?_, ?_, ?_, ?_⟩
  · rw [loadServerData, if_neg hcond]
    cases result <;> rfl
  · rw [loadServerData, if_neg hcond, loadServerData, if_neg hcond]
    cases result <;> rfl
  · rfl
  · rw [setSort]
    simp [hst, effectDeps]

/-- C2 witness: a concrete server-mode state with a nonempty sort
configuration produces the five-field request and an empty fetch list
from `setSort`. -/
theorem serverRequest_no_sort_witness :
    (loadServerData {initialState none (some "/api") 10 25 with
        sortConfig := ⟨"name", SortDir.desc⟩} false none
        (Except.ok ⟨[], none, false, 0⟩)).2
      = some ⟨1, 25, "", [],
              loadRequestToken {initialState none (some "/api") 10 25 with
                sortConfig := ⟨"name", SortDir.desc⟩} false none⟩ ∧
    (setSort "age" {initialState none (some "/api") 10 25 with
        sortConfig := ⟨"name", SortDir.desc⟩}).2 = [] ∧
    effectDeps (setSort "age" {initialState none (some "/api") 10 25 with
        sortConfig := ⟨"name", SortDir.desc⟩}).1
      = effectDeps {initialState none (some "/api") 10 25 with
          sortConfig := ⟨"name", SortDir.desc⟩} := by
  have h := serverRequest_no_sort {initialState none (some "/api") 10 25 with
      sortConfig := ⟨"name", SortDir.desc⟩} false none
      (Except.ok ⟨[], none, false, 0⟩) ⟨"", SortDir.asc⟩ "age" (by decide) rfl
  exact ⟨h.1, h.2.2.1, h.2.2.2⟩

/-- C9: whenever the guards of `loadServerData` pass (an endpoint is
configured and no static data is supplied), the loading flag is `false`
after completion on both the success and the failure path, and a failed
fetch stores the failure's human-readable message in the error state.
`loadServerData` is a total function into states — the failure is
swallowed by the catch block, never re-thrown to the caller. -/
theorem loadServerData_finally (s : GridState) (reset : Bool) (nav : Option NavDir)
    (result : Except String ServerResponse)
    (hep : s.endpoint ≠ none) (hst : s.staticData = none) :
    (loadServerData s reset nav result).1.loading = false ∧
    (∀ e, result = Except.error e →
      (loadServerData s reset nav result).1.error = some (humanMessage e)) := by
  have hcond : ¬ (s.endpoint = none ∨ s.staticData.isSome = true) := by
    simp [hep, hst]
  constructor
  · rw [loadServerData, if_neg hcond]
    cases result <;> rfl
  · intro e he
    subst he
    rw [loadServerData, if_neg hcond]

/-- C9 witness: a failing fetch on a fresh server-mode state leaves
`loading = false` and stores the message `"boom"`. -/
theorem loadServerData_finally_witness :
    (loadServerData (initialState none (some "/api") 10 100) true none
        (Except.error "boom")).1.loading = false ∧
    (loadServerData (initialState none (some "/api") 10 100) true none
        (Except.error "boom")).1.error = some (humanMessage "boom") := by
  have h := loadServerData_finally (initialState none (some "/api") 10 100) true none
    (Except.error "boom") (by decide) rfl
  exact ⟨h.1, h.2 "boom" rfl⟩

/-- C10: in client (static) mode, `refresh` resets the search term, the
filter list, the sort configuration and the page — and changes nothing
else: in particular the selection set is exactly preserved, and no fetch
is issued. -/
theorem refresh_client_frame (s : GridState) (hst : s.staticData.isSome = true) :
    (refresh s).1 = {s with searchTerm := "", activeFilters := [],
                            sortConfig := ⟨"", SortDir.asc⟩, currentPage := 1} ∧
    (refresh s).1.selectedRows = s.selectedRows ∧
    (refresh s).2 = [] := by
  rw [refresh, if_pos hst]
  exact ⟨rfl, rfl, rfl⟩

/-- C10 witness: refreshing a concrete static-mode state with a
selection, a search term, filters and a sort keeps the selection. -/
theorem refresh_client_frame_witness :
    (refresh {initialState (some [[("id", JSVal.vNum 1)]]) none 10 100 with
        selectedRows := ["row-0-id1"], searchTerm := "bob",
        sortConfig := ⟨"id", SortDir.desc⟩, currentPage := 2}).1
      = {({initialState (some [[("id", JSVal.vNum 1)]]) none 10 100 with
          selectedRows := ["row-0-id1"], searchTerm := "bob",
          sortConfig := ⟨"id", SortDir.desc⟩, currentPage := 2} : GridState) with
          searchTerm := "", activeFilters := [],
          sortConfig := ⟨"", SortDir.asc⟩, currentPage := 1} ∧
    (refresh {initialState (some [[("id", JSVal.vNum 1)]]) none 10 100 with
        selectedRows := ["row-0-id1"], searchTerm := "bob",
        sortConfig := ⟨"id", SortDir.desc⟩, currentPage := 2}).1.selectedRows
      = ["row-0-id1"] ∧
    (refresh {initialState (some [[("id", JSVal.vNum 1)]]) none 10 100 with
        selectedRows := ["row-0-id1"], searchTerm := "bob",
        sortConfig := ⟨"id", SortDir.desc⟩, currentPage := 2}).2 = [] := by
  have h := refresh_client_frame {initialState (some [[("id", JSVal.vNum 1)]]) none 10 100 with
      selectedRows := ["row-0-id1"], searchTerm := "bob",
      sortConfig := ⟨"id", SortDir.desc⟩, currentPage := 2} rfl
  exact ⟨h.1, h.2.1, h.2.2⟩

lemma hasNext_client {s : GridState} {d : List Row} (hd : s.staticData = some d) :
    (paginationInfo s).hasNext
      = decide (s.currentPage
          < jsCeilDiv ((processedData s).length : Int) s.currentPageSize) := by
  unfold paginationInfo
  rw [hd]

lemma hasPrevious_client {s : GridState} {d : List Row} (hd : s.staticData = some d) :
    (paginationInfo s).hasPrevious = decide (1 < s.currentPage) := by
  unfold paginationInfo
  rw [hd]

lemma navigateNext_client {s : GridState} {d : List Row} (hd : s.staticData = some d) :
    navigateNext s
      = if (paginationInfo s).hasNext = true
        then ({s with currentPage := s.currentPage + 1}, [])
        else (s, []) := by
  cases hn : (paginationInfo s).hasNext <;>
    simp [navigateNext, setPage, hn, hd]

lemma navigatePrevious_client {s : GridState} {d : List Row} (hd : s.staticData = some d) :
    navigatePrevious s
      = if (paginationInfo s).hasPrevious = true
        then ({s with currentPage := s.currentPage - 1}, [])
        else (s, []) := by
  cases hn : (paginationInfo s).hasPrevious <;>
    simp [navigatePrevious, setPage, hn, hd]

lemma processedData_plain {s : GridState} (hsearch : s.searchTerm = "")
    (hfil : s.activeFilters = []) (hsort : s.sortConfig.column = "") :
    processedData s = sourceData s := by
  unfold processedData
  rw [hsearch, hfil, hsort]
  simp

/-- C8 (general + scenario): in client mode `navigateNext` increments
the page exactly when `hasNext` holds and is otherwise a no-op,
`navigatePrevious` decrements exactly when `currentPage > 1`;
`hasNext` is `currentPage < ceil(processedData.length / pageSize)`; and
with `pageSize = 1` and any 3-row dataset, two `navigateNext` calls land
on page 3, `hasNext` is then false, and a third call is a no-op. -/
theorem navigate_next_previous (s : GridState) (rows d : List Row)
    (hd : s.staticData = some d) :
    (navigateNext s
      = if (paginationInfo s).hasNext = true
        then ({s with currentPage := s.currentPage + 1}, [])
        else (s, [])) ∧
    (navigatePrevious s
      = if (paginationInfo s).hasPrevious = true
        then ({s with currentPage := s.currentPage - 1}, [])
        else (s, [])) ∧
    ((paginationInfo s).hasNext
      = decide (s.currentPage
          < jsCeilDiv ((processedData s).length : Int) s.currentPageSize)) ∧
    ((paginationInfo s).hasPrevious = decide (1 < s.currentPage)) ∧
    (rows.length = 3 →
      ((navigateNext (navigateNext (initialState (some rows) none 1 100)).1).1.currentPage
          = 3 ∧
       (paginationInfo
          (navigateNext (navigateNext (initialState (some rows) none 1 100)).1).1).hasNext
          = false ∧
       navigateNext (navigateNext (navigateNext (initialState (some rows) none 1 100)).1).1
          = ((navigateNext (navigateNext (initialState (some rows) none 1 100)).1).1,
             []))) := by
  refine ⟨navigateNext_client hd, navigatePrevious_client hd, hasNext_client hd,
    hasPrevious_client hd, ?_⟩
  intro hlen
  have hpd0 : processedData (initialState (some rows) none 1 100) = rows := by
    rw [processedData_plain rfl rfl rfl]
    rfl
  have hn0 : (paginationInfo (initialState (some rows) none 1 100)).hasNext = true := by
    rw [hasNext_client (d := rows) rfl, hpd0, hlen]
    rfl
  have hs1 : (navigateNext (initialState (some rows) none 1 100)).1
      = {initialState (some rows) none 1 100 with currentPage := 2} := by
    rw [navigateNext_client (d := rows) rfl, hn0]
    rfl
  have hpd1 : processedData {initialState (some rows) none 1 100 with currentPage := 2}
      = rows := by
    rw [processedData_plain rfl rfl rfl]
    rfl
  have hn1 : (paginationInfo
      {initialState (some rows) none 1 100 with currentPage := 2}).hasNext = true := by
    rw [hasNext_client (d := rows) rfl, hpd1, hlen]
    rfl
  have hs2 : (navigateNext (navigateNext (initialState (some rows) none 1 100)).1).1
      = {initialState (some rows) none 1 100 with currentPage := 3} := by
    rw [hs1, navigateNext_client (d := rows) rfl, hn1]
    rfl
  have hpd2 : processedData {initialState (some rows) none 1 100 with currentPage := 3}
      = rows := by
    rw [processedData_plain rfl rfl rfl]
    rfl
  have hn2 : (paginationInfo
      {initialState (some rows) none 1 100 with currentPage := 3}).hasNext = false := by
    rw [hasNext_client (d := rows) rfl, hpd2, hlen]
    rfl
  refine ⟨by rw [hs2], ?_, ?_⟩
  · rw [hs2]
    exact hn2
  · rw [hs2, navigateNext_client (d := rows) rfl, hn2]
    rfl

/-- C8 witness: the scenario instantiated with three concrete rows. -/
theorem navigate_next_previous_witness :
    (navigateNext (navigateNext (initialState (some [[], [], []]) none 1 100)).1).1.currentPage
        = 3 ∧
    (paginationInfo
        (navigateNext (navigateNext (initialState (some [[], [], []]) none 1 100)).1).1).hasNext
        = false ∧
    navigateNext (navigateNext (navigateNext (initialState (some [[], [], []]) none 1 100)).1).1
        = ((navigateNext (navigateNext (initialState (some [[], [], []]) none 1 100)).1).1,
           []) :=
  (navigate_next_previous (initialState (some [[], [], []]) none 1 100) [[], [], []]
    [[], [], []] rfl).2.2.2.2 rfl
